import Mathlib

/-!
Formal model of `plot-experiments/plot_comparison.py`.

The script loads two convergence tables and two summary tables (pandas
DataFrames read from CSV), truncates each pair to a common shape, computes
per-iteration median/quartile series, draws a figure, saves it, and runs a
paired Wilcoxon signed-rank test on the two `final_fitness` columns,
printing a textual report.

Real numbers are modelled by `ℚ`; missing cells (pandas `NaN`) by `none`.
The pandas reductions (`median(axis=1)`, `quantile(q, axis=1)`, `dropna`)
and the scipy test (`scipy.stats.wilcoxon` with its default arguments
`zero_method="wilcox"`, `alternative="two-sided"`, `mode="auto"`) are not
part of the repository; they are embedded here following their documented
semantics, as noted on each definition.
-/

namespace PlotComparison

/-- A loaded pandas DataFrame: a list of column names (the header) and a
list of rows.  `len(df)` is the number of rows and `len(df.columns)` the
length of the header.  The cell type `α` is `Option ℚ` for convergence
tables (a `NaN` cell is `none`) and `ℚ` for summary tables. -/
structure DataFrame (α : Type) where
  header : List String
  rows : List (List α)
deriving DecidableEq

/-- Convergence table: rows are iterations, columns are repeated runs. -/
abbrev ConvTable := DataFrame (Option ℚ)

/-- Summary table: one row per repeated run. -/
abbrev SummaryTable := DataFrame ℚ

/-- Pandas `len(df)`. -/
def nrows (t : DataFrame α) : Nat := t.rows.length

/-- Pandas `len(df.columns)`. -/
def ncols (t : DataFrame α) : Nat := t.header.length

/-- Pandas `df.iloc[:r, :c]`: keep the first `r` rows and the first `c` columns. -/
def ilocRC (t : DataFrame α) (r c : Nat) : DataFrame α :=
  ⟨t.header.take c, (t.rows.take r).map (fun row => row.take c)⟩

/-- Pandas `df.iloc[:r]`: keep the first `r` rows, all columns. -/
def ilocR (t : DataFrame α) (r : Nat) : DataFrame α :=
  ⟨t.header, t.rows.take r⟩

/-- Lines 16-21 of the script: trim both convergence tables to
`min_rows_conv = min(len(r_conv), len(py_conv))` rows and
`min_cols_conv = min(len(r_conv.columns), len(py_conv.columns))` columns. -/
def alignConv (a b : ConvTable) : ConvTable × ConvTable :=
  let min_rows_conv := min (nrows a) (nrows b)
  let min_cols_conv := min (ncols a) (ncols b)
  (ilocRC a min_rows_conv min_cols_conv, ilocRC b min_rows_conv min_cols_conv)

/-- Lines 23-26 of the script: trim both summary tables to
`min_rows_summary = min(len(r_summary), len(py_summary))` rows. -/
def alignSummary (a b : SummaryTable) : SummaryTable × SummaryTable :=
  let min_rows_summary := min (nrows a) (nrows b)
  (ilocR a min_rows_summary, ilocR b min_rows_summary)

/-- Linear-interpolation quantile of an already sorted nonempty list,
following numpy/pandas `quantile(q, interpolation="linear")`: with
`n = len(xs)` and `h = q*(n-1)`, the result is
`xs[⌊h⌋] + (h-⌊h⌋)*(xs[⌊h⌋+1] - xs[⌊h⌋])` (out-of-range reads only occur
with weight `0` for `0 ≤ q ≤ 1`). -/
def interpQ (xs : List ℚ) (q : ℚ) : ℚ :=
  let h : ℚ := q * ((xs.length : ℚ) - 1)
  let i : Nat := (Int.floor h).toNat
  xs.getD i 0 + (h - (i : ℚ)) * (xs.getD (i + 1) 0 - xs.getD i 0)

/-- pandas `Series.quantile(q)` of a list of numbers: `NaN` (here `none`)
on an empty series, otherwise the linear-interpolation quantile of the
sorted values.  `listQuantile xs (1/2)` is `Series.median`. -/
def listQuantile (xs : List ℚ) (q : ℚ) : Option ℚ :=
  if xs.isEmpty then none else some (interpQ (List.insertionSort (· ≤ ·) xs) q)

/-- One row's reduction across the run columns, skipping missing cells
(pandas default `skipna=True`): `NaN` exactly when every cell of the row
is missing. -/
def rowQuantile (row : List (Option ℚ)) (q : ℚ) : Option ℚ :=
  listQuantile (row.filterMap id) q

/-- Pandas `t.quantile(q, axis=1).dropna()` (for `q = 1/2` this is
`t.median(axis=1).dropna()`): the per-row quantiles, with the undefined
entries (rows whose cells are all missing) removed. -/
def quantileSeries (t : ConvTable) (q : ℚ) : List ℚ :=
  t.rows.filterMap (fun row => rowQuantile row q)

/-- The six derived series of lines 33-39 of the script. -/
structure SixSeries where
  r_median : List ℚ
  r_q25 : List ℚ
  r_q75 : List ℚ
  py_median : List ℚ
  py_q25 : List ℚ
  py_q75 : List ℚ
deriving DecidableEq

/-- Lines 33-39: the six series before the final length-matching pass. -/
def rawSeries (r_conv py_conv : ConvTable) : SixSeries :=
  ⟨quantileSeries r_conv (1/2), quantileSeries r_conv (1/4), quantileSeries r_conv (3/4),
   quantileSeries py_conv (1/2), quantileSeries py_conv (1/4), quantileSeries py_conv (3/4)⟩

/-- Line 42-44: `min_conv_len`, the minimum of the six series lengths. -/
def min_conv_len (s : SixSeries) : Nat :=
  min s.r_median.length (min s.py_median.length (min s.r_q25.length
    (min s.r_q75.length (min s.py_q25.length s.py_q75.length))))

/-- Lines 45-50: trim every series to `min_conv_len`. -/
def trimSeries (s : SixSeries) : SixSeries :=
  let L := min_conv_len s
  ⟨s.r_median.take L, s.r_q25.take L, s.r_q75.take L,
   s.py_median.take L, s.py_q25.take L, s.py_q75.take L⟩

/-- The Statistics Reducer: derived series of the two (aligned)
convergence tables after the final length-matching pass. -/
def reduceStats (r_conv py_conv : ConvTable) : SixSeries :=
  trimSeries (rawSeries r_conv py_conv)

/-- The faults the routine can raise: a pandas `KeyError` on a missing
column, and the two `ValueError`s of `scipy.stats.wilcoxon` (unequal
sample lengths; all differences zero under `zero_method="wilcox"`). -/
inductive Fault where
  | keyError (col : String)
  | unequalLength
  | zeroWilcoxon
deriving DecidableEq

/-- Pandas `df["name"].values`: the column of that label, or a `KeyError` when
the label is absent from the header. -/
def getColumn (t : SummaryTable) (name : String) : Except Fault (List ℚ) :=
  if name ∈ t.header then
    .ok (t.rows.map (fun row => row.getD (t.header.indexOf name) 0))
  else .error (.keyError name)

/-- The average (midrank) rank of `v` among the absolute values of the
entries of `dnz`, as used by `scipy.stats.rankdata(method="average")` on
`abs(d)`. -/
def avgRank (dnz : List ℚ) (v : ℚ) : ℚ :=
  (dnz.countP (fun w => decide (|w| < |v|)) : ℚ) +
    ((dnz.countP (fun w => decide (|w| = |v|)) : ℚ) + 1) / 2

/-- Model of `scipy.stats.wilcoxon(x, y)` with its default arguments
(`zero_method="wilcox"`, `correction=False`, `alternative="two-sided"`,
`mode="auto"`), following the library's documented behaviour:
raises on unequal lengths; with `d = x - y`, raises when every difference
is zero (the documented `zero_method 'wilcox' and 'pratt' do not work if
x - y is zero for all elements` error); otherwise discards the zero
differences, ranks the absolute differences with average ranks, and
returns `T = min(r_plus, r_minus)` together with the two-sided p-value.
The p-value here is the exact signed-rank distribution value
`min(1, 2 * #{S ⊆ ranks | sum S ≤ T} / 2^n)`; the large-sample normal
approximation branch is not modelled (no claim depends on it, and it is
irrational). -/
def wilcoxon (x y : List ℚ) : Except Fault (ℚ × ℚ) :=
  if x.length ≠ y.length then .error .unequalLength
  else
    let d := (x.zip y).map (fun p => p.1 - p.2)
    if d.countP (fun v => decide (v = 0)) = d.length then .error .zeroWilcoxon
    else
      let dnz := d.filter (fun v => decide (v ≠ 0))
      let ranks := dnz.map (avgRank dnz)
      let r_plus := ((dnz.filter (fun v => decide (0 < v))).map (avgRank dnz)).sum
      let r_minus := ((dnz.filter (fun v => decide (v < 0))).map (avgRank dnz)).sum
      let T := min r_plus r_minus
      let cnt := ranks.sublists.countP (fun s => decide (s.sum ≤ T))
      let p := min 1 (2 * (cnt : ℚ) / (2 ^ ranks.length : ℚ))
      .ok (T, p)

/-- Line 99 of the script: the printed significance verdict,
`"Yes" if p_value < 0.05 else "No"`. -/
def verdict (p_value : ℚ) : String :=
  if p_value < 5 / 100 then "Yes" else "No"

/-- Rendering of a median for the report (Python prints `nan` for the
median of an empty series; numeric formatting details are abstracted). -/
def fmtMedian (m : Option ℚ) : String :=
  match m with
  | none => "nan"
  | some q => toString q

/-- Lines 95-103: the printed report lines, as functions of the test
outcome and the two summary medians. -/
def reportLines (statistic p_value : ℚ) (rMed pyMed : Option ℚ) : List String :=
  ["=== STATISTICAL COMPARISON ===",
   "Wilcoxon signed-rank test:",
   "Statistic: " ++ toString statistic,
   "P-value: " ++ toString p_value,
   "Significant difference: " ++ verdict p_value,
   "R Implementation - Median: " ++ fmtMedian rMed,
   "Python Implementation - Median: " ++ fmtMedian pyMed]

/-- Observable effects of the routine, in program order: writing the image
file, showing the figure window, printing a line. -/
inductive Event where
  | savefig (path : String)
  | showFig
  | printLine (s : String)
deriving DecidableEq

/-- The whole routine `create_comparison_plots` on four loaded tables:
the emitted events in program order, paired with the fault that aborted
the run (`none` when it ran to completion).  Mirrors the script's order:
align, reduce, build the box-plot data (the first accesses of
`final_fitness`, lines 73-76), save and show the figure (lines 87-88),
then the Wilcoxon test and the printed report (lines 91-103). -/
def create_comparison_plots (r_conv py_conv : ConvTable)
    (r_summary py_summary : SummaryTable) : List Event × Option Fault :=
  let ab := alignConv r_conv py_conv
  let st := alignSummary r_summary py_summary
  let _series := reduceStats ab.1 ab.2
  match getColumn st.1 "final_fitness" with
  | .error e => ([], some e)
  | .ok rFF =>
    match getColumn st.2 "final_fitness" with
    | .error e => ([], some e)
    | .ok pyFF =>
      let plotEvents := [Event.savefig "r_vs_python_comparison.png", Event.showFig]
      match wilcoxon rFF pyFF with
      | .error e => (plotEvents, some e)
      | .ok sp =>
        (plotEvents ++
          (reportLines sp.1 sp.2 (listQuantile rFF (1/2)) (listQuantile pyFF (1/2))).map
            Event.printLine,
         none)

/-- Input path of the R convergence table, hardcoded in the script. -/
def r_conv_path : String := "../des_comparison/r_convergence_f1_d10.csv"

/-- Input path of the Python convergence table, hardcoded in the script. -/
def py_conv_path : String := "../python-evo/python_convergence_f1_d10.csv"

/-- Input path of the R summary table, hardcoded in the script. -/
def r_summary_path : String := "../des_comparison/r_summary_f1_d10.csv"

/-- Input path of the Python summary table, hardcoded in the script. -/
def py_summary_path : String := "../python-evo/python_summary_f1_d10.csv"

/-- The convergence-panel title, hardcoded in the script. -/
def plot_title : String := "Convergence Comparison: CEC2017 F1 (10D)"

/-- The output image name passed to `savefig`, hardcoded in the script. -/
def save_path : String := "r_vs_python_comparison.png"

/-- Modelled from the spec: the F-parameterized input path of the R
convergence table in the parameterized variant of the routine, which the
spec records (Design Notes) but which is not present under `src/`. -/
def r_conv_path_f (F : Nat) : String :=
  "../des_comparison/r_convergence_f" ++ toString F ++ "_d10.csv"

/-- Modelled from the spec: the F-parameterized input path of the Python
convergence table. -/
def py_conv_path_f (F : Nat) : String :=
  "../python-evo/python_convergence_f" ++ toString F ++ "_d10.csv"

/-- Modelled from the spec: the F-parameterized input path of the R
summary table. -/
def r_summary_path_f (F : Nat) : String :=
  "../des_comparison/r_summary_f" ++ toString F ++ "_d10.csv"

/-- Modelled from the spec: the F-parameterized input path of the Python
summary table. -/
def py_summary_path_f (F : Nat) : String :=
  "../python-evo/python_summary_f" ++ toString F ++ "_d10.csv"

/-- Modelled from the spec: the F-parameterized plot title. -/
def plot_title_f (F : Nat) : String :=
  "Convergence Comparison: CEC2017 F" ++ toString F ++ " (10D)"

/-- Modelled from the spec: the F-parameterized output image name
`r_vs_python_comparison_f<F>.png`. -/
def save_path_f (F : Nat) : String :=
  "r_vs_python_comparison_f" ++ toString F ++ ".png"

/-- Modelled from the spec: the four input paths read by the Data Loader,
as a function of the benchmark-function identifier `F` alone. -/
def inputPaths (F : Nat) : List String :=
  [r_conv_path_f F, py_conv_path_f F, r_summary_path_f F, py_summary_path_f F]

/-- A 100-row, 20-column convergence table (the spec's scenario input A). -/
def tableA : ConvTable :=
  ⟨List.replicate 20 "run", List.replicate 100 (List.replicate 20 (some 1))⟩

/-- An 80-row, 25-column convergence table (the spec's scenario input B). -/
def tableB : ConvTable :=
  ⟨List.replicate 25 "run", List.replicate 80 (List.replicate 25 (some 1))⟩

/-- The summary column `[1.0, 2.0, 3.0]` of the spec's zero-difference
Wilcoxon scenario. -/
def ff3 : List ℚ := [1, 2, 3]

/-- The `(statistic, p_value)` pair a `wilcoxon` call reports, `none` when
the call raised instead of reporting. -/
def reportedResult (e : Except Fault (ℚ × ℚ)) : Option (ℚ × ℚ) :=
  match e with
  | .ok v => some v
  | .error _ => none

/-- A two-run summary table with a `final_fitness` column. -/
def sumA : SummaryTable := ⟨["run_id", "final_fitness"], [[1, 5], [2, 7]]⟩

/-- A three-run summary table with a `final_fitness` column. -/
def sumB : SummaryTable := ⟨["final_fitness"], [[4], [6], [8]]⟩

/-- A summary table lacking the `final_fitness` column. -/
def sumBad : SummaryTable := ⟨["run_id", "mean_fitness"], [[1, 3]]⟩

/-- A small convergence table used by concrete witnesses. -/
def convC : ConvTable := ⟨["r1", "r2"], [[some 3, some 1], [some 2, none]]⟩

end PlotComparison

namespace PlotComparison

theorem zip_self_sub (x : List ℚ) :
    (x.zip x).map (fun p => p.1 - p.2) = List.replicate x.length 0 := by
  induction x with
  | nil => rfl
  | cons a t ih => simp [List.zip_cons_cons, ih, List.replicate_succ]

theorem countP_zero_replicate (n : Nat) :
    (List.replicate n (0 : ℚ)).countP (fun v => decide (v = 0)) = n := by
  induction n with
  | zero => rfl
  | succ m ih => simp [List.replicate_succ, List.countP_cons, ih]

/-- Claim C1: the Aligner truncates every pair of same-role tables to equal
shapes: equal row counts (and, for convergence tables, equal column
counts), each the minimum of the two inputs' corresponding counts; in
particular a 100x20 and an 80x25 convergence table become two 80x20
tables. -/
theorem aligner_min_shapes :
    (∀ a b : ConvTable,
      nrows (alignConv a b).1 = min (nrows a) (nrows b) ∧
      nrows (alignConv a b).2 = min (nrows a) (nrows b) ∧
      ncols (alignConv a b).1 = min (ncols a) (ncols b) ∧
      ncols (alignConv a b).2 = min (ncols a) (ncols b)) ∧
    (∀ a b : SummaryTable,
      nrows (alignSummary a b).1 = min (nrows a) (nrows b) ∧
      nrows (alignSummary a b).2 = min (nrows a) (nrows b)) ∧
    (nrows (alignConv tableA tableB).1 = 80 ∧ ncols (alignConv tableA tableB).1 = 20 ∧
      nrows (alignConv tableA tableB).2 = 80 ∧ ncols (alignConv tableA tableB).2 = 20) := by
  refine ⟨fun a b => ⟨?_, ?_, ?_, ?_⟩, fun a b => ⟨?_, ?_⟩, ?_, ?_, ?_, ?_⟩ <;>
    simp [alignConv, alignSummary, ilocRC, ilocR, nrows, ncols, tableA, tableB,
      List.length_take]

/-- Claim C2: the Data Loader's four input paths are parameterized by the
benchmark-function identifier `F` (substituted into the paths and the plot
title), and the output image name is `r_vs_python_comparison_f<F>.png` or
the un-suffixed variant; at `F = 1` the parameterized paths and title are
exactly the ones hardcoded in the script, whose output name is the
un-suffixed variant. -/
theorem loader_paths_parameterized :
    inputPaths 1 = [r_conv_path, py_conv_path, r_summary_path, py_summary_path] ∧
    plot_title_f 1 = plot_title ∧
    save_path_f 1 = "r_vs_python_comparison_f1.png" ∧
    save_path = "r_vs_python_comparison.png" := by
  refine ⟨?_, ?_, ?_, ?_⟩ <;> rfl

/-- Claim C3: after the final trimming step, the six derived series handed
to the Plot Renderer all have the same length, namely `min_conv_len`, the
length of the shared index sequence `range min_conv_len` the script zips
them against. -/
theorem six_series_equal_length (rc pc : ConvTable) :
    (reduceStats rc pc).r_median.length = min_conv_len (rawSeries rc pc) ∧
    (reduceStats rc pc).r_q25.length = min_conv_len (rawSeries rc pc) ∧
    (reduceStats rc pc).r_q75.length = min_conv_len (rawSeries rc pc) ∧
    (reduceStats rc pc).py_median.length = min_conv_len (rawSeries rc pc) ∧
    (reduceStats rc pc).py_q25.length = min_conv_len (rawSeries rc pc) ∧
    (reduceStats rc pc).py_q75.length = min_conv_len (rawSeries rc pc) := by
  refine ⟨?_, ?_, ?_, ?_, ?_, ?_⟩ <;>
    simp only [reduceStats, trimSeries, List.length_take, min_conv_len] <;> omega

/-- Claim C3 witness: the equal-length property evaluated on a concrete
pair of convergence tables. -/
theorem six_series_equal_length_witness :
    (reduceStats convC convC).r_median.length = min_conv_len (rawSeries convC convC) ∧
    (reduceStats convC convC).r_q25.length = min_conv_len (rawSeries convC convC) ∧
    (reduceStats convC convC).r_q75.length = min_conv_len (rawSeries convC convC) ∧
    (reduceStats convC convC).py_median.length = min_conv_len (rawSeries convC convC) ∧
    (reduceStats convC convC).py_q25.length = min_conv_len (rawSeries convC convC) ∧
    (reduceStats convC convC).py_q75.length = min_conv_len (rawSeries convC convC) :=
  six_series_equal_length convC convC

/-- Claim C5 counterexample: on two identical `final_fitness` columns
`[1, 2, 3]`, the Wilcoxon call does not report any `(statistic, p_value)`
pair (in particular not `p = 1.0`): scipy's default
`zero_method="wilcox"` raises its all-differences-zero `ValueError`. -/
theorem wilcoxon_zero_diff_counterexample :
    wilcoxon ff3 ff3 = .error Fault.zeroWilcoxon ∧
    reportedResult (wilcoxon ff3 ff3) = none := by
  have h : wilcoxon ff3 ff3 = .error Fault.zeroWilcoxon := by
    unfold wilcoxon
    simp [zip_self_sub, countP_zero_replicate]
  exact ⟨h, by rw [h]; rfl⟩

/-- Claim C5 (amended): when the two final-fitness columns are pairwise
identical, every paired difference is zero, and `scipy.stats.wilcoxon`
under its default `zero_method="wilcox"` raises its documented
all-differences-zero `ValueError`; the routine aborts without reporting a
statistic or p-value. -/
theorem wilcoxon_zero_diff (x y : List ℚ) (h : x = y) :
    wilcoxon x y = .error Fault.zeroWilcoxon := by
  subst h
  unfold wilcoxon
  simp [zip_self_sub, countP_zero_replicate]

/-- Claim C5 witness: the amended claim at the concrete columns
`[1, 2, 3]` and `[1, 2, 3]`. -/
theorem wilcoxon_zero_diff_witness :
    ff3 = ff3 ∧ wilcoxon ff3 ff3 = .error Fault.zeroWilcoxon :=
  ⟨rfl, wilcoxon_zero_diff ff3 ff3 rfl⟩

theorem filterMap_ite {α β : Type} (p : α → Bool) (v : α → β) (l : List α) :
    (l.filterMap fun a => if p a then some (v a) else none) = (l.filter p).map v := by
  induction l with
  | nil => rfl
  | cons a t ih =>
    by_cases h : p a <;> simp [List.filterMap_cons, List.filter_cons, h, ih]

theorem filterMap_id_isEmpty (row : List (Option ℚ)) :
    (row.filterMap id).isEmpty = !row.any (fun c => c.isSome) := by
  induction row with
  | nil => rfl
  | cons a t ih =>
    cases a <;> simp [List.filterMap_cons, ih]

theorem rowQuantile_eq (row : List (Option ℚ)) (q : ℚ) :
    rowQuantile row q = if row.any (fun c => c.isSome) then
      some (interpQ (List.insertionSort (· ≤ ·) (row.filterMap id)) q) else none := by
  unfold rowQuantile listQuantile
  rw [filterMap_id_isEmpty]
  cases h : row.any (fun c => c.isSome) <;> simp [h]

theorem getD_sorted_mono {xs : List ℚ} (hs : List.Sorted (· ≤ ·) xs)
    {i j : Nat} (hij : i ≤ j) (hj : j < xs.length) :
    xs.getD i 0 ≤ xs.getD j 0 := by
  have hi : i < xs.length := Nat.lt_of_le_of_lt hij hj
  rw [List.getD_eq_getElem xs 0 hi, List.getD_eq_getElem xs 0 hj]
  have h := List.Sorted.rel_get_of_le hs (a := ⟨i, hi⟩) (b := ⟨j, hj⟩) (Fin.mk_le_mk.mpr hij)
  simpa using h

theorem toNat_floor_le {x : ℚ} (hx : 0 ≤ x) : ((Int.floor x).toNat : ℚ) ≤ x := by
  have h1 : ((Int.floor x).toNat : ℤ) = Int.floor x :=
    Int.toNat_of_nonneg (Int.floor_nonneg.mpr hx)
  have h2 : ((Int.floor x : ℤ) : ℚ) ≤ x := Int.floor_le x
  rw [← h1] at h2
  exact_mod_cast h2

theorem lt_toNat_floor_add_one {x : ℚ} (hx : 0 ≤ x) : x < ((Int.floor x).toNat : ℚ) + 1 := by
  have h1 : ((Int.floor x).toNat : ℤ) = Int.floor x :=
    Int.toNat_of_nonneg (Int.floor_nonneg.mpr hx)
  have h2 : x < ((Int.floor x : ℤ) : ℚ) + 1 := Int.lt_floor_add_one x
  rw [← h1] at h2
  exact_mod_cast h2

theorem toNat_floor_lt {x : ℚ} {n : Nat} (hn : 1 ≤ n) (hx : x ≤ (n : ℚ) - 1) :
    (Int.floor x).toNat < n := by
  have h4 := Int.floor_mono hx
  rw [show ((n : ℚ) - 1) = (((n : ℤ) - 1 : ℤ) : ℚ) by push_cast; ring,
    Int.floor_intCast] at h4
  omega

theorem interp_core_mono {xs : List ℚ} (hs : List.Sorted (· ≤ ·) xs)
    {i j : Nat} {a b : ℚ}
    (hia : (i : ℚ) ≤ a) (hai : a < (i : ℚ) + 1)
    (hjb : (j : ℚ) ≤ b) (hbj : b < (j : ℚ) + 1)
    (hab : a ≤ b) (hjn : j < xs.length) (hbn : b ≤ (xs.length : ℚ) - 1) :
    xs.getD i 0 + (a - (i : ℚ)) * (xs.getD (i + 1) 0 - xs.getD i 0) ≤
      xs.getD j 0 + (b - (j : ℚ)) * (xs.getD (j + 1) 0 - xs.getD j 0) := by
  have hij : i ≤ j := by
    by_contra hc
    push_neg at hc
    have h5 : (j : ℚ) + 1 ≤ (i : ℚ) := by exact_mod_cast Nat.succ_le_of_lt hc
    linarith
  rcases Nat.eq_or_lt_of_le hij with heq | hlt
  · subst heq
    by_cases hj1 : i + 1 < xs.length
    · have hD : 0 ≤ xs.getD (i + 1) 0 - xs.getD i 0 := by
        have := getD_sorted_mono hs (Nat.le_succ i) hj1
        linarith
      have hmul : (a - (i : ℚ)) * (xs.getD (i + 1) 0 - xs.getD i 0) ≤
          (b - (i : ℚ)) * (xs.getD (i + 1) 0 - xs.getD i 0) :=
        mul_le_mul_of_nonneg_right (by linarith) hD
      linarith
    · have hlen : xs.length = i + 1 := by omega
      have hi_eq : (i : ℚ) = (xs.length : ℚ) - 1 := by
        rw [hlen]; push_cast; ring
      have hb_eq : b = (i : ℚ) := le_antisymm (by rw [hi_eq]; exact hbn) hjb
      have ha_eq : a = (i : ℚ) := le_antisymm (by linarith) hia
      rw [ha_eq, hb_eq]
  · have hi1j : i + 1 ≤ j := hlt
    have hi1n : i + 1 < xs.length := Nat.lt_of_le_of_lt hi1j hjn
    have hD : 0 ≤ xs.getD (i + 1) 0 - xs.getD i 0 := by
      have := getD_sorted_mono hs (Nat.le_succ i) hi1n
      linarith
    have step1 : xs.getD i 0 + (a - (i : ℚ)) * (xs.getD (i + 1) 0 - xs.getD i 0) ≤
        xs.getD (i + 1) 0 := by
      have hmul : (a - (i : ℚ)) * (xs.getD (i + 1) 0 - xs.getD i 0) ≤
          1 * (xs.getD (i + 1) 0 - xs.getD i 0) :=
        mul_le_mul_of_nonneg_right (by linarith) hD
      linarith
    have step2 : xs.getD (i + 1) 0 ≤ xs.getD j 0 := getD_sorted_mono hs hi1j hjn
    have step3 : xs.getD j 0 ≤
        xs.getD j 0 + (b - (j : ℚ)) * (xs.getD (j + 1) 0 - xs.getD j 0) := by
      by_cases hj1 : j + 1 < xs.length
      · have hD' : 0 ≤ xs.getD (j + 1) 0 - xs.getD j 0 := by
          have := getD_sorted_mono hs (Nat.le_succ j) hj1
          linarith
        nlinarith [mul_nonneg (by linarith : (0 : ℚ) ≤ b - (j : ℚ)) hD']
      · have hlen : xs.length = j + 1 := by omega
        have hj_eq : (j : ℚ) = (xs.length : ℚ) - 1 := by rw [hlen]; push_cast; ring
        have hb_eq : b = (j : ℚ) := le_antisymm (by rw [hj_eq]; exact hbn) hjb
        rw [hb_eq]
        simp
    linarith

theorem interpQ_mono {xs : List ℚ} (hs : List.Sorted (· ≤ ·) xs) (hne : xs ≠ [])
    {q q' : ℚ} (hq0 : 0 ≤ q) (hqq : q ≤ q') (hq1 : q' ≤ 1) :
    interpQ xs q ≤ interpQ xs q' := by
  have hn : 1 ≤ xs.length := List.length_pos.mpr hne
  have hn1 : (0 : ℚ) ≤ (xs.length : ℚ) - 1 := by
    have h1 : (1 : ℚ) ≤ (xs.length : ℚ) := by exact_mod_cast hn
    linarith
  have h0 : 0 ≤ q * ((xs.length : ℚ) - 1) := mul_nonneg hq0 hn1
  have h0' : 0 ≤ q' * ((xs.length : ℚ) - 1) := mul_nonneg (le_trans hq0 hqq) hn1
  have hle : q * ((xs.length : ℚ) - 1) ≤ q' * ((xs.length : ℚ) - 1) :=
    mul_le_mul_of_nonneg_right hqq hn1
  have htop : q' * ((xs.length : ℚ) - 1) ≤ (xs.length : ℚ) - 1 := by
    have h2 := mul_le_mul_of_nonneg_right hq1 hn1
    linarith
  unfold interpQ
  exact interp_core_mono hs (toNat_floor_le h0) (lt_toNat_floor_add_one h0)
    (toNat_floor_le h0') (lt_toNat_floor_add_one h0') hle
    (toNat_floor_lt hn htop) htop

theorem listQuantile_mono {xs : List ℚ} {q q' : ℚ} (hq0 : 0 ≤ q) (hqq : q ≤ q')
    (hq1 : q' ≤ 1) {a b : ℚ} (ha : listQuantile xs q = some a)
    (hb : listQuantile xs q' = some b) : a ≤ b := by
  unfold listQuantile at ha hb
  by_cases he : xs.isEmpty
  · rw [if_pos he] at ha
    exact absurd ha (by simp)
  · rw [if_neg he] at ha hb
    have hne : List.insertionSort (· ≤ ·) xs ≠ [] := by
      intro hcon
      have hlen := List.length_insertionSort (· ≤ ·) xs
      rw [hcon] at hlen
      have h3 : xs = [] := List.eq_nil_of_length_eq_zero hlen.symm
      simp [h3] at he
    have hmono := interpQ_mono (List.sorted_insertionSort (· ≤ ·) xs) hne hq0 hqq hq1
    rw [← Option.some.inj ha, ← Option.some.inj hb]
    exact hmono

theorem rowQuantile_isSome (row : List (Option ℚ)) (q : ℚ) :
    (rowQuantile row q).isSome = !(row.filterMap id).isEmpty := by
  unfold rowQuantile listQuantile
  by_cases h : (row.filterMap id).isEmpty <;> simp [h]

theorem forall2_le_filterMap {f g : List (Option ℚ) → Option ℚ}
    (hfg : ∀ r, (f r).isSome = (g r).isSome)
    (hle : ∀ r x y, f r = some x → g r = some y → x ≤ y)
    (l : List (List (Option ℚ))) :
    List.Forall₂ (· ≤ ·) (l.filterMap f) (l.filterMap g) := by
  induction l with
  | nil => simp
  | cons r t ih =>
    rcases hf : f r with _ | x <;> rcases hg : g r with _ | y
    · rw [List.filterMap_cons, List.filterMap_cons, hf, hg]
      exact ih
    · exfalso
      have h1 := hfg r
      rw [hf, hg] at h1
      simp at h1
    · exfalso
      have h1 := hfg r
      rw [hf, hg] at h1
      simp at h1
    · rw [List.filterMap_cons, List.filterMap_cons, hf, hg]
      exact List.Forall₂.cons (hle r x y hf hg) ih

/-- Claim C4: for every convergence table, the q25, median and q75 series
computed by the Statistics Reducer are defined at exactly the same
iteration indices, and satisfy `q25[i] ≤ median[i] ≤ q75[i]` pointwise. -/
theorem quartile_order (t : ConvTable) :
    List.Forall₂ (· ≤ ·) (quantileSeries t (1/4)) (quantileSeries t (1/2)) ∧
    List.Forall₂ (· ≤ ·) (quantileSeries t (1/2)) (quantileSeries t (3/4)) := by
  constructor
  · unfold quantileSeries
    exact forall2_le_filterMap
      (fun r => by rw [rowQuantile_isSome, rowQuantile_isSome])
      (fun r x y hx hy => by
        unfold rowQuantile at hx hy
        exact listQuantile_mono (by norm_num) (by norm_num) (by norm_num) hx hy)
      t.rows
  · unfold quantileSeries
    exact forall2_le_filterMap
      (fun r => by rw [rowQuantile_isSome, rowQuantile_isSome])
      (fun r x y hx hy => by
        unfold rowQuantile at hx hy
        exact listQuantile_mono (by norm_num) (by norm_num) (by norm_num) hx hy)
      t.rows

/-- Claim C8: per convergence table, the Statistics Reducer maps each row
to its median, 25th and 75th percentile across the run columns, discarding
exactly the rows with no defined cell: each derived series is the
per-row interpolated quantile of the surviving rows, in order, and the
three series lengths agree, equalling the number of rows with at least one
defined cell. -/
theorem reducer_row_spec (t : ConvTable) :
    quantileSeries t (1/2) = ((t.rows.filter fun row => row.any fun c => c.isSome).map
      fun row => interpQ (List.insertionSort (· ≤ ·) (row.filterMap id)) (1/2)) ∧
    quantileSeries t (1/4) = ((t.rows.filter fun row => row.any fun c => c.isSome).map
      fun row => interpQ (List.insertionSort (· ≤ ·) (row.filterMap id)) (1/4)) ∧
    quantileSeries t (3/4) = ((t.rows.filter fun row => row.any fun c => c.isSome).map
      fun row => interpQ (List.insertionSort (· ≤ ·) (row.filterMap id)) (3/4)) ∧
    (quantileSeries t (1/2)).length = (t.rows.countP fun row => row.any fun c => c.isSome) ∧
    (quantileSeries t (1/4)).length = (quantileSeries t (1/2)).length ∧
    (quantileSeries t (3/4)).length = (quantileSeries t (1/2)).length := by
  have key : ∀ q : ℚ, quantileSeries t q =
      ((t.rows.filter fun row => row.any fun c => c.isSome).map
        fun row => interpQ (List.insertionSort (· ≤ ·) (row.filterMap id)) q) := by
    intro q
    unfold quantileSeries
    simp only [rowQuantile_eq]
    exact filterMap_ite _ _ _
  refine ⟨key _, key _, key _, ?_, ?_, ?_⟩ <;>
    simp [key, List.countP_eq_length_filter]

theorem wilcoxon_ne_unequal {x y : List ℚ} (h : x.length = y.length) :
    wilcoxon x y ≠ .error Fault.unequalLength := by
  unfold wilcoxon
  simp only [h, ne_eq, not_true_eq_false, if_false, ite_not]
  split <;> simp

/-- Claim C7: after the Aligner's summary truncation, the two
`final_fitness` arrays handed to the Hypothesis Tester have equal length
(whenever both are present), so the Wilcoxon unequal-length error branch
is unreachable. -/
theorem wilcoxon_equal_length (sa sb : SummaryTable)
    (ha : "final_fitness" ∈ sa.header) (hb : "final_fitness" ∈ sb.header) :
    ∃ xs ys : List ℚ,
      getColumn (alignSummary sa sb).1 "final_fitness" = .ok xs ∧
      getColumn (alignSummary sa sb).2 "final_fitness" = .ok ys ∧
      xs.length = ys.length ∧
      wilcoxon xs ys ≠ .error Fault.unequalLength := by
  have ha' : "final_fitness" ∈ (alignSummary sa sb).1.header := ha
  have hb' : "final_fitness" ∈ (alignSummary sa sb).2.header := hb
  have hlen : ((alignSummary sa sb).1.rows.map
        (fun row => row.getD ((alignSummary sa sb).1.header.indexOf "final_fitness") 0)).length =
      ((alignSummary sa sb).2.rows.map
        (fun row => row.getD ((alignSummary sa sb).2.header.indexOf "final_fitness") 0)).length := by
    simp [alignSummary, ilocR, List.length_take, nrows]
  refine ⟨(alignSummary sa sb).1.rows.map
      (fun row => row.getD ((alignSummary sa sb).1.header.indexOf "final_fitness") 0),
    (alignSummary sa sb).2.rows.map
      (fun row => row.getD ((alignSummary sa sb).2.header.indexOf "final_fitness") 0),
    ?_, ?_, hlen, wilcoxon_ne_unequal hlen⟩
  · unfold getColumn
    rw [if_pos ha']
  · unfold getColumn
    rw [if_pos hb']

/-- Claim C7 witness: the equal-length property at two concrete summary
tables of two and three rows. -/
theorem wilcoxon_equal_length_witness :
    ("final_fitness" ∈ sumA.header ∧ "final_fitness" ∈ sumB.header) ∧
    (∃ xs ys : List ℚ,
      getColumn (alignSummary sumA sumB).1 "final_fitness" = .ok xs ∧
      getColumn (alignSummary sumA sumB).2 "final_fitness" = .ok ys ∧
      xs.length = ys.length ∧
      wilcoxon xs ys ≠ .error Fault.unequalLength) :=
  ⟨⟨by decide, by decide⟩, wilcoxon_equal_length sumA sumB (by decide) (by decide)⟩

/-- Claim C6: when a summary table lacks the `final_fitness` column, the
run aborts with a `KeyError` for that column, and the emitted event trace
is empty: in particular no `savefig` happened, so no output image file was
written. -/
theorem missing_column_no_plot (rc pc : ConvTable) (rs ps : SummaryTable)
    (h : "final_fitness" ∉ rs.header ∨ "final_fitness" ∉ ps.header) :
    (create_comparison_plots rc pc rs ps).1 = [] ∧
    (create_comparison_plots rc pc rs ps).2 = some (Fault.keyError "final_fitness") := by
  unfold create_comparison_plots
  by_cases hr : "final_fitness" ∈ rs.header
  · have hp : "final_fitness" ∉ ps.header := by
      rcases h with h | h
      · exact absurd hr h
      · exact h
    have h1 : "final_fitness" ∈ (alignSummary rs ps).1.header := hr
    have h2 : "final_fitness" ∉ (alignSummary rs ps).2.header := hp
    simp [getColumn, h1, h2]
  · have h1 : "final_fitness" ∉ (alignSummary rs ps).1.header := hr
    simp [getColumn, h1]

/-- Claim C6 witness: the missing-column fault on a concrete summary table
whose header has no `final_fitness`. -/
theorem missing_column_no_plot_witness :
    ("final_fitness" ∉ sumBad.header ∨ "final_fitness" ∉ sumB.header) ∧
    ((create_comparison_plots convC convC sumBad sumB).1 = [] ∧
      (create_comparison_plots convC convC sumBad sumB).2 =
        some (Fault.keyError "final_fitness")) :=
  ⟨Or.inl (by decide), missing_column_no_plot convC convC sumBad sumB (Or.inl (by decide))⟩

/-- Claim C9: the routine is a deterministic function of the four loaded
tables: two runs on identical inputs emit identical event traces, and in
particular byte-identical printed report lines. -/
theorem report_deterministic (rc rc' pc pc' : ConvTable) (rs rs' ps ps' : SummaryTable)
    (h1 : rc = rc') (h2 : pc = pc') (h3 : rs = rs') (h4 : ps = ps') :
    create_comparison_plots rc pc rs ps = create_comparison_plots rc' pc' rs' ps' := by
  subst h1
  subst h2
  subst h3
  subst h4
  rfl

/-- Claim C9 witness: determinism at concrete tables: a second run on the
identical loaded tables produces the identical trace. -/
theorem report_deterministic_witness :
    (convC = convC ∧ sumA = sumA) ∧
    create_comparison_plots convC convC sumA sumA =
      create_comparison_plots convC convC sumA sumA :=
  ⟨⟨rfl, rfl⟩,
    report_deterministic convC convC convC convC sumA sumA sumA sumA rfl rfl rfl rfl⟩

/-- Claim C10: the printed significance verdict is `"Yes"` exactly when
the p-value is strictly below `0.05`, and at the boundary `p = 0.05` it is
`"No"`. -/
theorem significance_threshold :
    (∀ p : ℚ, verdict p = "Yes" ↔ p < 5 / 100) ∧ verdict (5 / 100) = "No" := by
  constructor
  · intro p
    by_cases h : p < 5 / 100 <;> simp [verdict, h]
  · simp [verdict]

end PlotComparison
